import Mathlib

/-!
Shallow embedding of the provider-resolution / fallback / preprocessing core of
`livellm` (src/livellm/proxy/livellm_client.py) together with the data model from
src/src/models/provider.py and src/livellm/proxy/models/message.py.

Conventions of the embedding:
* Python exceptions become `Except`: an action supplied to the fallback executor
  returns `Except String α` (the string is `str(e)`), and client-level failures
  become the `ClientError` inductive whose constructors mirror the distinct
  `ValueError` messages raised by the source.
* The HTTP transport (`LivellmProxyClient`) is an external collaborator; it is
  modelled as an oracle field of the `Proxy` structure mapping a request and a
  credential triple to an outcome.
* Python's `"image" in mime_type` test is substring containment, embedded via
  `List.isInfixOf` on the character lists.
* An async-generator call in Python runs none of its body at call time; the
  generator object is modelled as the outcome that iterating it later produces
  (`StreamOutcome`), and constructing it is a total operation.
-/

namespace Livellm

/-- Provider credentials: src/src/models/provider.py `Creds`. -/
structure Creds where
  api_key : String
  provider : String
  base_url : Option String
deriving DecidableEq, Repr

/-- Model capabilities enumeration: src/src/models/provider.py `ModelCapability`. -/
inductive ModelCapability where
  | AUDIO_AGENT
  | IMAGE_AGENT
  | VIDEO_AGENT
  | SPEAK
  | TRANSCRIBE
deriving DecidableEq, Repr

/-- Model configuration: src/src/models/provider.py `Model`. -/
structure Model where
  name : String
  capabilities : List ModelCapability
deriving DecidableEq, Repr

/-- Provider configuration: src/src/models/provider.py `ProviderConfig`. -/
structure ProviderConfig where
  creds : Creds
  models : List Model
deriving DecidableEq, Repr

/-- Text message: src/livellm/proxy/models/message.py `TextMessage`. -/
structure TextMessage where
  role : String
  content : String
deriving DecidableEq, Repr

/-- Binary message: src/livellm/proxy/models/message.py `BinaryMessage`
(content is the base64 string; we keep it abstract as a string). -/
structure BinaryMessage where
  role : String
  content : String
  mime_type : String
  caption : Option String
deriving DecidableEq, Repr

/-- `Union[TextMessage, BinaryMessage]` as it appears in message lists. -/
inductive Message where
  | text (t : TextMessage)
  | binary (b : BinaryMessage)
deriving DecidableEq, Repr

/-- `isinstance(message, BinaryMessage)` as a Bool. -/
def Message.isBinary : Message → Bool
  | .binary _ => true
  | .text _ => false

/-- Tools of an agent request (src/livellm/proxy/models/tool.py); their payload
is irrelevant to the core logic, only their presence in requests. -/
inductive Tool where
  | webSearch (search_context_size : String)
  | mcpServer (url : String) (prefix_ : String)
deriving DecidableEq, Repr

/-- Generation config: `Dict[str, Any]` in the source; modelled as association
list of rendered values (the transformer pins `temperature` to `0.0`). -/
abbrev GenConfig := List (String × String)

/-- Agent request: src/livellm/proxy/models/agent.py `AgentRequest`. -/
structure AgentRequest where
  model : String
  messages : List Message
  tools : List Tool
  gen_config : GenConfig
deriving DecidableEq, Repr

/-- Token usage: src/livellm/proxy/models/agent.py `AgentResponseUsage`. -/
structure AgentResponseUsage where
  input_tokens : Nat
  output_tokens : Nat
deriving DecidableEq, Repr

/-- Agent response: src/livellm/proxy/models/agent.py `AgentResponse`. -/
structure AgentResponse where
  output : String
  usage : AgentResponseUsage
deriving DecidableEq, Repr

/-- The distinct `ValueError` families raised by `LivellmProxy`; each
constructor corresponds to one `raise` site's message format. -/
inductive ClientError where
  /-- "No providers found that support model: {model}" (lines 56 and 71). -/
  | modelNotFound (model : String)
  /-- "Unsupported mime type: {mime}" (lines 247 and 277). -/
  | unsupportedMime (mime : String)
  /-- "No model with capability {cap} found" (line 220). -/
  | noCapableModel (cap : ModelCapability)
  /-- "After all fallback attempts, the executable failed ..." (line 87),
  carrying the accumulated (model, str(e)) pairs. -/
  | fallbackExhausted (errors : List (String × String))
  /-- "After all fallback attempts, the binary transformer failed ..."
  (line 167), carrying the accumulated (model name, str(e)) pairs. -/
  | transformerExhausted (errors : List (String × String))
deriving DecidableEq, Repr

/-- Rendering of `{cap}` for the capability enum (`str` of a Python enum
member: `ModelCapability.IMAGE_AGENT` etc.). -/
def ModelCapability.render : ModelCapability → String
  | .AUDIO_AGENT => "ModelCapability.AUDIO_AGENT"
  | .IMAGE_AGENT => "ModelCapability.IMAGE_AGENT"
  | .VIDEO_AGENT => "ModelCapability.VIDEO_AGENT"
  | .SPEAK => "ModelCapability.SPEAK"
  | .TRANSCRIBE => "ModelCapability.TRANSCRIBE"

/-- One `f"\nModel: {model},\nError: {error}"` line of the aggregated message. -/
def renderErrorPair (p : String × String) : String :=
  "\nModel: " ++ p.1 ++ ",\nError: " ++ p.2

/-- `str(e)` of a `ClientError`, mirroring the f-strings at each raise site. -/
def ClientError.message : ClientError → String
  | .modelNotFound m => "No providers found that support model: " ++ m
  | .unsupportedMime mime => "Unsupported mime type: " ++ mime
  | .noCapableModel c => "No model with capability " ++ c.render ++ " found"
  | .fallbackExhausted errors =>
      "After all fallback attempts, the executable failed: Errors: "
        ++ String.intercalate "\n" (errors.map renderErrorPair)
  | .transformerExhausted errors =>
      "After all fallback attempts, the binary transformer failed: Errors: "
        ++ String.intercalate "\n" (errors.map renderErrorPair)

/-- `sub` occurs as a contiguous run inside `l`. -/
def listContainsInfix (sub : List Char) : List Char → Bool
  | [] => sub.isEmpty
  | c :: rest => sub.isPrefixOf (c :: rest) || listContainsInfix sub rest

/-- Python `sub in s` on strings: substring containment. -/
def strContains (s sub : String) : Bool :=
  listContainsInfix sub.toList s.toList

/-! ## Capability registry lookups (livellm_client.py lines 42-71) -/

/-- The inner loop of `__get_providers_for_model`: scan this provider's models
and stop at the first whose name equals `model` (the `break`); as a Bool this is
exactly "some model of the provider has this name". -/
def providerMatches (model : String) (p : ProviderConfig) : Bool :=
  p.models.any (fun m => m.name == model)

/-- The accumulation loop of `__get_providers_for_model` (lines 48-53): one
`creds` appended per matching provider, in registration order. -/
def collectProviderCreds (model : String) : List ProviderConfig → List Creds
  | [] => []
  | p :: rest =>
      if providerMatches model p then
        p.creds :: collectProviderCreds model rest
      else
        collectProviderCreds model rest

/-- `LivellmProxy.__get_providers_for_model` (lines 42-58). The `lru_cache` is
an optimization over immutable state and has no semantic content. -/
def getProvidersForModel (providers : List ProviderConfig) (model : String) :
    Except ClientError (List Creds) :=
  if (collectProviderCreds model providers).isEmpty then
    .error (.modelNotFound model)
  else
    .ok (collectProviderCreds model providers)

/-- `LivellmProxy.__get_model_capabilities` (lines 61-71): capabilities of the
first model named `model` in the first provider that has one. -/
def getModelCapabilities (providers : List ProviderConfig) (model : String) :
    Except ClientError (List ModelCapability) :=
  match providers with
  | [] => .error (.modelNotFound model)
  | p :: rest =>
      match p.models.find? (fun m => m.name == model) with
      | some m => .ok m.capabilities
      | none => getModelCapabilities rest model

/-! ## Fallback executor, non-streaming path (lines 73-87) -/

/-- The `for cred in creds` loop of `__run_with_fallback` with `stream=False`:
`errs` is the `errors` list accumulated so far; each failure appends
`(model, str(e))` and iteration continues; exhaustion raises the aggregate. -/
def runWithFallbackLoop (action : Creds → Except String α) (model : String)
    (errs : List (String × String)) : List Creds → Except ClientError α
  | [] => .error (.fallbackExhausted errs)
  | c :: rest =>
      match action c with
      | .ok r => .ok r
      | .error e => runWithFallbackLoop action model (errs ++ [(model, e)]) rest

/-- `LivellmProxy.__run_with_fallback` (non-streaming): resolve candidates,
then run the loop. -/
def runWithFallback (providers : List ProviderConfig)
    (action : Creds → Except String α) (model : String) : Except ClientError α :=
  match getProvidersForModel providers model with
  | .error e => .error e
  | .ok creds => runWithFallbackLoop action model [] creds

/-- The sequence of credentials with which the loop invokes `action`
(the trace of `executable(cred)` calls, in execution order). -/
def fallbackTrace (action : Creds → Except String α) : List Creds → List Creds
  | [] => []
  | c :: rest =>
      match action c with
      | .ok _ => [c]
      | .error _ => c :: fallbackTrace action rest

/-! ## Streaming path (lines 78-79 and 94-99) -/

/-- What iterating a stream (an async generator) eventually produces: the
chunks yielded before iteration stops, and the error that aborts iteration,
if any. An establishment failure (non-200 status in `agent_run_stream`,
raw_client.py lines 108-117) is `chunks = []` with a failure, since the body
raises before the first `yield`. -/
structure StreamOutcome where
  chunks : List AgentResponse
  failure : Option String
deriving DecidableEq, Repr

/-- The client state: the registered provider configurations plus the transport
port (`LivellmProxyClient`), modelled as oracles. `agentRun` returns the
outcome of one non-streaming `/agent/run` call with the given credentials;
`agentRunStream` gives the outcome that iterating the stream opened with the
given credentials produces. -/
structure Proxy where
  providers : List ProviderConfig
  agentRun : AgentRequest → Creds → Except String AgentResponse
  agentRunStream : AgentRequest → Creds → StreamOutcome

/-- The `for cred in creds` loop of `__run_with_fallback` with `stream=True`:
`executable(cred)` calls an async generator function, which constructs the
generator object without executing any of its body, so the call cannot raise;
the `except` branch is unreachable and the loop returns the first candidate's
generator on its first iteration. -/
def runWithFallbackStreamLoop (mkStream : Creds → StreamOutcome) (_model : String)
    (errs : List (String × String)) : List Creds → Except ClientError StreamOutcome
  | [] => .error (.fallbackExhausted errs)
  | c :: _ => .ok (mkStream c)

/-- `LivellmProxy.__agent_run_stream_with_fallback` (lines 94-99): resolve
candidates, run the streaming fallback loop, then iterate the returned
generator re-yielding its chunks; what its consumer observes is the returned
`StreamOutcome` (or the resolution error, raised when iteration starts). -/
def agentRunStreamWithFallback (px : Proxy) (req : AgentRequest) :
    Except ClientError StreamOutcome :=
  match getProvidersForModel px.providers req.model with
  | .error e => .error e
  | .ok creds => runWithFallbackStreamLoop (px.agentRunStream req) req.model [] creds

/-! ## Binary transformer sub-calls (lines 89-92 and 133-260) -/

/-- `LivellmProxy.__agent_run_with_fallback` (lines 89-92). -/
def agentRunWithFallback (px : Proxy) (req : AgentRequest) :
    Except ClientError AgentResponse :=
  runWithFallback px.providers (fun cred => px.agentRun req cred) req.model

/-- System prompt of `__audio_to_text` (lines 170-179). -/
def audioSystemPrompt : String :=
  "You will act as ASR.\nYou will be given an audio file and you will need to transcribe it to text.\nTranscribe the audio in a language that is most likely to be the language of the audio.\nReturn ONLY the text of the transcription. Nothing more\nReturn result like this:\n<audio_transcription>\n[text of the transcription]\n</audio_transcription>"

/-- System prompt of `__image_to_text` (lines 183-192). -/
def imageSystemPrompt : String :=
  "You will act as OCR.\nYou will be given an image file and you will need to fully describe the image in detail.\nReturn ONLY description of the image. Nothing more\nThe description should be in a language that is most likely to be the language of the image.\nReturn result like this:\n<image_description>\n[description of the image]\n</image_description>"

/-- System prompt of `__video_to_text` (lines 196-205). -/
def videoSystemPrompt : String :=
  "You will act as VSR.\nYou will be given a video file and you will need to fully describe the video in detail.\nReturn ONLY description of the video. Nothing more\nThe description should be in a language that is most likely to be the language of the video.\nReturn result like this:\n<video_description>\n[description of the video]\n</video_description>"

/-- `LivellmProxy.__run_agent_as_binary_transformer` (lines 133-155): a
two-message sub-request (system prompt, then the binary message) with
temperature 0 and no tools, run through the agent fallback; returns the
response's output text. -/
def runAgentAsBinaryTransformer (px : Proxy) (binary_message : BinaryMessage)
    (model : String) (system_prompt : String) : Except ClientError String :=
  let agent_request : AgentRequest :=
    { model := model
      messages := [.text ⟨"system", system_prompt⟩, .binary binary_message]
      tools := []
      gen_config := [("temperature", "0.0")] }
  match agentRunWithFallback px agent_request with
  | .ok response => .ok response.output
  | .error e => .error e

/-- The `for model in models` loop of `__run_binary_transformer_with_fallback`
(lines 157-167): try each candidate model's name, accumulating
`(model.name, str(e))` on failure, and raise the aggregate on exhaustion. -/
def runBinaryTransformerLoop (tryModel : Model → Except ClientError String)
    (errs : List (String × String)) : List Model → Except ClientError String
  | [] => .error (.transformerExhausted errs)
  | m :: rest =>
      match tryModel m with
      | .ok r => .ok r
      | .error e => runBinaryTransformerLoop tryModel (errs ++ [(m.name, e.message)]) rest

/-- `LivellmProxy.__run_binary_transformer_with_fallback` (lines 157-167). -/
def runBinaryTransformerWithFallback (px : Proxy) (binary_message : BinaryMessage)
    (models : List Model) (system_prompt : String) : Except ClientError String :=
  runBinaryTransformerLoop
    (fun m => runAgentAsBinaryTransformer px binary_message m.name system_prompt)
    [] models

/-- The trace of the transformer loop: the candidate models actually attempted,
in execution order. -/
def transformerTrace (tryModel : Model → Except ClientError String) :
    List Model → List Model
  | [] => []
  | m :: rest =>
      match tryModel m with
      | .ok _ => [m]
      | .error _ => m :: transformerTrace tryModel rest

/-- The nested provider/model accumulation of `__find_models_with_capability`
(lines 214-218) before the emptiness check: models of all providers in
registration order. -/
def allModels : List ProviderConfig → List Model
  | [] => []
  | p :: rest => p.models ++ allModels rest

/-- `LivellmProxy.__find_models_with_capability` (lines 210-221). -/
def findModelsWithCapability (providers : List ProviderConfig)
    (capability : ModelCapability) : Except ClientError (List Model) :=
  if ((allModels providers).filter (fun m => m.capabilities.contains capability)).isEmpty then
    .error (.noCapableModel capability)
  else
    .ok ((allModels providers).filter (fun m => m.capabilities.contains capability))

/-- The candidate-list construction repeated in each branch of
`__binary_to_text` (lines 229-232, 235-238, 241-244): the primary model first
when it has the capability, then every registered model with the capability. -/
def transformerCandidates (providers : List ProviderConfig) (primary : Model)
    (capability : ModelCapability) : Except ClientError (List Model) :=
  let base := if primary.capabilities.contains capability then [primary] else []
  match findModelsWithCapability providers capability with
  | .error e => .error e
  | .ok ms => .ok (base ++ ms)

/-- `LivellmProxy.__binary_to_text` (lines 223-247): dispatch on substring
tests of the MIME type, in the order image, video, audio. -/
def binaryToText (px : Proxy) (binary_message : BinaryMessage) (primary : Model) :
    Except ClientError String :=
  if strContains binary_message.mime_type "image" then
    match transformerCandidates px.providers primary .IMAGE_AGENT with
    | .error e => .error e
    | .ok models => runBinaryTransformerWithFallback px binary_message models imageSystemPrompt
  else if strContains binary_message.mime_type "video" then
    match transformerCandidates px.providers primary .VIDEO_AGENT with
    | .error e => .error e
    | .ok models => runBinaryTransformerWithFallback px binary_message models videoSystemPrompt
  else if strContains binary_message.mime_type "audio" then
    match transformerCandidates px.providers primary .AUDIO_AGENT with
    | .error e => .error e
    | .ok models => runBinaryTransformerWithFallback px binary_message models audioSystemPrompt
  else
    .error (.unsupportedMime binary_message.mime_type)

/-- `LivellmProxy.__binaries_to_text` (lines 249-260): transform binary
messages in place (role preserved), pass text messages through, left to
right, aborting at the first failure. -/
def binariesToText (px : Proxy) (primary : Model) :
    List Message → Except ClientError (List Message)
  | [] => .ok []
  | .binary b :: rest =>
      match binaryToText px b primary with
      | .error e => .error e
      | .ok text_content =>
          match binariesToText px primary rest with
          | .error e => .error e
          | .ok rest' => .ok (.text ⟨b.role, text_content⟩ :: rest')
  | .text t :: rest =>
      match binariesToText px primary rest with
      | .error e => .error e
      | .ok rest' => .ok (.text t :: rest')

/-! ## Required capabilities and preprocessing (lines 263-308) -/

/-- `LivellmProxy.__required_capabilities` (lines 263-278): one capability per
binary message, chosen by substring tests in the order image, video, audio,
raising at the first MIME type containing none of the three. -/
def requiredCapabilities : List Message → Except ClientError (List ModelCapability)
  | [] => .ok []
  | .text _ :: rest => requiredCapabilities rest
  | .binary b :: rest =>
      if strContains b.mime_type "image" then
        (requiredCapabilities rest).map (ModelCapability.IMAGE_AGENT :: ·)
      else if strContains b.mime_type "video" then
        (requiredCapabilities rest).map (ModelCapability.VIDEO_AGENT :: ·)
      else if strContains b.mime_type "audio" then
        (requiredCapabilities rest).map (ModelCapability.AUDIO_AGENT :: ·)
      else
        .error (.unsupportedMime b.mime_type)

/-- `LivellmProxy.__preprocess_messages` (lines 280-308). -/
def preprocessMessages (px : Proxy) (messages : List Message) (model : String)
    (force_binary_transformation : Bool) : Except ClientError (List Message) :=
  match getModelCapabilities px.providers model with
  | .error e => .error e
  | .ok model_capabilities =>
      let model_obj : Model := ⟨model, model_capabilities⟩
      if force_binary_transformation then
        binariesToText px model_obj messages
      else
        match requiredCapabilities messages with
        | .error e => .error e
        | .ok required =>
            if required.all (fun c => model_obj.capabilities.contains c) then
              .ok messages
            else
              binariesToText px model_obj messages

/-! ## Derived notions used by the specification theorems -/

/-- The `str(e)` recorded for a candidate when its attempt fails
(junk value when the attempt succeeds; only used under all-fail hypotheses). -/
def actionErrMsg (action : Creds → Except String α) (c : Creds) : String :=
  match action c with
  | .error e => e
  | .ok _ => ""

/-- The MIME types accepted by the substring dispatch of
`__required_capabilities` and `__binary_to_text`. -/
def mimeSupported (mime : String) : Bool :=
  strContains mime "image" || strContains mime "video" || strContains mime "audio"

/-- The capability derived from an accepted MIME type by the source's
substring tests, in the order image, video, audio (junk value on an
unaccepted MIME type). -/
def capOfMime (mime : String) : ModelCapability :=
  if strContains mime "image" then .IMAGE_AGENT
  else if strContains mime "video" then .VIDEO_AGENT
  else if strContains mime "audio" then .AUDIO_AGENT
  else .AUDIO_AGENT

/-- The MIME types of the binary messages of a list, in order. -/
def binaryMimes : List Message → List String
  | [] => []
  | .text _ :: rest => binaryMimes rest
  | .binary b :: rest => b.mime_type :: binaryMimes rest

/-- The system prompt `__binary_to_text` dispatches to for each modality
capability (junk value for the non-modality capabilities). -/
def promptOfCap : ModelCapability → String
  | .IMAGE_AGENT => imageSystemPrompt
  | .VIDEO_AGENT => videoSystemPrompt
  | .AUDIO_AGENT => audioSystemPrompt
  | _ => ""

/-- The candidate prefix contributed by the primary model in each branch of
`__binary_to_text`: the primary model iff it has the capability. -/
def primaryPrefix (primary : Model) (cap : ModelCapability) : List Model :=
  if primary.capabilities.contains cap then [primary] else []

/-- One attempt of the transformer loop: `__run_agent_as_binary_transformer`
on the candidate's name. -/
def tryTransform (px : Proxy) (bm : BinaryMessage) (prompt : String) (m : Model) :
    Except ClientError String :=
  runAgentAsBinaryTransformer px bm m.name prompt

/-- Shape relation between an input message and its preprocessed counterpart:
a text message passes through unchanged, a binary message is replaced by a
text message with the same role (and some content). -/
def transformedShape : Message → Message → Prop
  | .text t, m' => m' = .text t
  | .binary b, m' => ∃ s, m' = .text ⟨b.role, s⟩

/-! ## Concrete data for the closed witness and counterexample theorems -/

/-- Credentials of a first sample provider. -/
def sampleCredsA : Creds := ⟨"key-a", "openai", none⟩

/-- Credentials of a second sample provider. -/
def sampleCredsB : Creds := ⟨"key-b", "google", none⟩

/-- Credentials of a third sample provider. -/
def sampleCredsC : Creds := ⟨"key-c", "anthropic", none⟩

/-- Three providers registered in order, all exposing model "m". -/
def sampleProviders : List ProviderConfig :=
  [⟨sampleCredsA, [⟨"m", []⟩]⟩, ⟨sampleCredsB, [⟨"m", []⟩]⟩, ⟨sampleCredsC, [⟨"m", []⟩]⟩]

/-- An action that fails for the first two sample providers and succeeds for
the third. -/
def sampleAction (c : Creds) : Except String Nat :=
  if c.provider == "anthropic" then .ok 7 else .error "boom"

/-- An action that fails for every candidate, with a per-provider message. -/
def failAction (c : Creds) : Except String Nat :=
  .error ("fail-" ++ c.provider)

/-- Providers declaring capabilities: the first does not expose "m"; the
second and third both do, with different capability sets. -/
def capProviders : List ProviderConfig :=
  [⟨sampleCredsA, [⟨"n", []⟩]⟩,
   ⟨sampleCredsB, [⟨"m", [.IMAGE_AGENT]⟩]⟩,
   ⟨sampleCredsC, [⟨"m", [.VIDEO_AGENT]⟩]⟩]

/-- A proxy over `capProviders` whose transport answers every non-streaming
agent call with a fixed response. -/
def okProxy : Proxy :=
  { providers := capProviders
    agentRun := fun _ _ => .ok ⟨"described", ⟨1, 1⟩⟩
    agentRunStream := fun _ _ => ⟨[], none⟩ }

/-- A binary image message followed by a text message. -/
def sampleMessages : List Message :=
  [.binary ⟨"user", "payload", "image/png", none⟩, .text ⟨"user", "hi"⟩]

/-- A single provider exposing the image-capable model "m". -/
def dupProviders : List ProviderConfig :=
  [⟨sampleCredsB, [⟨"m", [.IMAGE_AGENT]⟩]⟩]

/-- A proxy over `dupProviders` whose transport fails every agent call. -/
def dupProxy : Proxy :=
  { providers := dupProviders
    agentRun := fun _ _ => .error "boom"
    agentRunStream := fun _ _ => ⟨[], none⟩ }

/-- The `str(e)` of the inner fallback exhaustion produced by each failed
transformer attempt against model "m" under `dupProxy`. -/
def dupMsg : String :=
  (ClientError.fallbackExhausted [("m", "boom")]).message

/-- One provider exposing two image-capable models. -/
def twoModelProviders : List ProviderConfig :=
  [⟨sampleCredsB, [⟨"n1", [.IMAGE_AGENT]⟩, ⟨"n2", [.IMAGE_AGENT]⟩]⟩]

/-- The two image-capable candidate models of `twoModelProviders`. -/
def twoCapable : List Model :=
  [⟨"n1", [.IMAGE_AGENT]⟩, ⟨"n2", [.IMAGE_AGENT]⟩]

/-- A proxy over `twoModelProviders` whose transport fails agent calls for
every model but "n2". -/
def pickyProxy : Proxy :=
  { providers := twoModelProviders
    agentRun := fun req _ => if req.model == "n2" then .ok ⟨"ocr-text", ⟨1, 1⟩⟩ else .error "boom"
    agentRunStream := fun _ _ => ⟨[], none⟩ }

/-- Two providers registered in order, both exposing "m". -/
def streamProviders : List ProviderConfig :=
  [⟨sampleCredsA, [⟨"m", []⟩]⟩, ⟨sampleCredsB, [⟨"m", []⟩]⟩]

/-- A proxy over `streamProviders` whose transport fails stream establishment
for the first provider (iteration raises before any chunk) and streams one
chunk successfully for the second. -/
def streamProxy : Proxy :=
  { providers := streamProviders
    agentRun := fun _ _ => .error "unused"
    agentRunStream := fun _ c =>
      if c == sampleCredsA then ⟨[], some "Error streaming agent: 500"⟩
      else ⟨[⟨"chunk", ⟨1, 1⟩⟩], none⟩ }

/-- A streaming agent request for model "m". -/
def streamRequest : AgentRequest :=
  ⟨"m", [.text ⟨"user", "hi"⟩], [], []⟩

/-! ## Helper lemmas for the claim theorems -/

theorem runWithFallbackLoop_all_fail (action : Creds → Except String α) (model : String)
    (creds : List Creds) :
    ∀ errs : List (String × String),
      (∀ c ∈ creds, ∃ e, action c = .error e) →
      runWithFallbackLoop action model errs creds =
        .error (.fallbackExhausted
          (errs ++ creds.map (fun c => (model, actionErrMsg action c)))) := by
  induction creds with
  | nil => intro errs _; simp [runWithFallbackLoop]
  | cons c rest ih =>
      intro errs h
      obtain ⟨e, he⟩ := h c (by simp)
      have hrest := ih (errs ++ [(model, e)]) (fun c' hc' => h c' (by simp [hc']))
      simp [runWithFallbackLoop, he, hrest, actionErrMsg]

theorem runWithFallbackLoop_first_success (action : Creds → Except String α)
    (model : String) (creds : List Creds) :
    ∀ (errs : List (String × String)) (i : Nat) (hi : i < creds.length) (r : α),
      (∀ j (hj : j < i), ∃ e, action (creds.get ⟨j, Nat.lt_trans hj hi⟩) = .error e) →
      action (creds.get ⟨i, hi⟩) = .ok r →
      runWithFallbackLoop action model errs creds = .ok r := by
  induction creds with
  | nil => intro _ i hi; exact absurd hi (Nat.not_lt_zero i)
  | cons c rest ih =>
      intro errs i hi r hfail hsucc
      cases i with
      | zero =>
          have hc : action c = .ok r := hsucc
          simp [runWithFallbackLoop, hc]
      | succ n =>
          obtain ⟨e, he⟩ := hfail 0 (Nat.succ_pos n)
          have he' : action c = .error e := he
          have hn : n < rest.length := Nat.lt_of_succ_lt_succ hi
          have hfail' : ∀ j (hj : j < n),
              ∃ e', action (rest.get ⟨j, Nat.lt_trans hj hn⟩) = .error e' :=
            fun j hj => hfail (j + 1) (Nat.succ_lt_succ hj)
          have hsucc' : action (rest.get ⟨n, hn⟩) = .ok r := hsucc
          have := ih (errs ++ [(model, e)]) n hn r hfail' hsucc'
          simp [runWithFallbackLoop, he', this]

theorem fallbackTrace_first_success (action : Creds → Except String α)
    (creds : List Creds) :
    ∀ (i : Nat) (hi : i < creds.length) (r : α),
      (∀ j (hj : j < i), ∃ e, action (creds.get ⟨j, Nat.lt_trans hj hi⟩) = .error e) →
      action (creds.get ⟨i, hi⟩) = .ok r →
      fallbackTrace action creds = creds.take (i + 1) := by
  induction creds with
  | nil => intro i hi; exact absurd hi (Nat.not_lt_zero i)
  | cons c rest ih =>
      intro i hi r hfail hsucc
      cases i with
      | zero =>
          have hc : action c = .ok r := hsucc
          simp [fallbackTrace, hc]
      | succ n =>
          obtain ⟨e, he⟩ := hfail 0 (Nat.succ_pos n)
          have he' : action c = .error e := he
          have hn : n < rest.length := Nat.lt_of_succ_lt_succ hi
          have hfail' : ∀ j (hj : j < n),
              ∃ e', action (rest.get ⟨j, Nat.lt_trans hj hn⟩) = .error e' :=
            fun j hj => hfail (j + 1) (Nat.succ_lt_succ hj)
          have hsucc' : action (rest.get ⟨n, hn⟩) = .ok r := hsucc
          have := ih n hn r hfail' hsucc'
          simp [fallbackTrace, he', this]

theorem providerMatches_eq_decide (model : String) (p : ProviderConfig) :
    providerMatches model p = decide (∃ m ∈ p.models, m.name = model) := by
  simp only [providerMatches]
  rw [Bool.eq_iff_iff]
  simp [List.any_eq_true]

theorem collectProviderCreds_eq_filter_map (model : String) (ps : List ProviderConfig) :
    collectProviderCreds model ps =
      (ps.filter (providerMatches model)).map ProviderConfig.creds := by
  induction ps with
  | nil => rfl
  | cons p rest ih =>
      by_cases h : providerMatches model p = true <;>
        simp [collectProviderCreds, List.filter_cons, h, ih]

theorem collectProviderCreds_eq_nil_iff (model : String) (ps : List ProviderConfig) :
    collectProviderCreds model ps = [] ↔
      ∀ p ∈ ps, ∀ m ∈ p.models, m.name ≠ model := by
  rw [collectProviderCreds_eq_filter_map]
  simp [List.filter_eq_nil_iff, providerMatches, List.any_eq_true]

/-! ## Claim theorems: fallback executor -/

/-- C1: for a model exposed by registered providers, the fallback executor
invokes the action with each candidate's credentials in registration order,
returns the result of the first successful invocation without invoking the
action on any later candidate, and the invocation trace is a prefix of the
candidate list (so no candidate's credentials are used twice). -/
theorem runWithFallback_first_success (providers : List ProviderConfig)
    (action : Creds → Except String α) (model : String) (creds : List Creds)
    (i : Nat) (hi : i < creds.length) (r : α)
    (hres : getProvidersForModel providers model = .ok creds)
    (hfail : ∀ j (hj : j < i), ∃ e, action (creds.get ⟨j, Nat.lt_trans hj hi⟩) = .error e)
    (hsucc : action (creds.get ⟨i, hi⟩) = .ok r) :
    runWithFallback providers action model = .ok r ∧
    fallbackTrace action creds = creds.take (i + 1) := by
  constructor
  · unfold runWithFallback
    rw [hres]
    exact runWithFallbackLoop_first_success action model creds [] i hi r hfail hsucc
  · exact fallbackTrace_first_success action creds i hi r hfail hsucc

/-- C2: if the action fails on every candidate, the fallback executor raises
the aggregated error whose failure list has exactly one (identifier, message)
entry per candidate, in attempt order. -/
theorem runWithFallback_exhaustion (providers : List ProviderConfig)
    (action : Creds → Except String α) (model : String) (creds : List Creds)
    (hres : getProvidersForModel providers model = .ok creds)
    (hfail : ∀ c ∈ creds, ∃ e, action c = .error e) :
    runWithFallback providers action model =
      .error (.fallbackExhausted (creds.map (fun c => (model, actionErrMsg action c)))) := by
  unfold runWithFallback
  rw [hres]
  simpa using runWithFallbackLoop_all_fail action model creds [] hfail

/-- C10: when every candidate fails, every entry of the aggregated failure
list carries the requested model name as its identifier (one entry per
candidate); the failed candidate's credentials are not part of the entries. -/
theorem runWithFallback_exhaustion_identifiers (providers : List ProviderConfig)
    (action : Creds → Except String α) (model : String) (creds : List Creds)
    (hres : getProvidersForModel providers model = .ok creds)
    (hfail : ∀ c ∈ creds, ∃ e, action c = .error e) :
    ∃ failures,
      runWithFallback providers action model = .error (.fallbackExhausted failures) ∧
      failures.length = creds.length ∧
      ∀ p ∈ failures, p.1 = model := by
  refine ⟨creds.map (fun c => (model, actionErrMsg action c)), ?_, by simp, ?_⟩
  · unfold runWithFallback
    rw [hres]
    simpa using runWithFallbackLoop_all_fail action model creds [] hfail
  · intro p hp
    obtain ⟨c, _, rfl⟩ := List.mem_map.mp hp
    rfl

/-! ## Claim theorems: registry lookups -/

/-- C7: `__get_providers_for_model` returns the credentials of exactly the
providers exposing the model, in registration order, one entry per matching
provider (even if several of its models share the name), with matching by
string equality; and it fails with the model-not-found error iff no registered
provider has a model of that name. -/
theorem getProvidersForModel_spec (providers : List ProviderConfig) (model : String) :
    (∀ creds, getProvidersForModel providers model = .ok creds →
        creds = (providers.filter
          (fun p => decide (∃ m ∈ p.models, m.name = model))).map ProviderConfig.creds) ∧
    (getProvidersForModel providers model = .error (.modelNotFound model) ↔
      ∀ p ∈ providers, ∀ m ∈ p.models, m.name ≠ model) := by
  have hfilter : providers.filter (providerMatches model) =
      providers.filter (fun p => decide (∃ m ∈ p.models, m.name = model)) :=
    List.filter_congr (fun p _ => providerMatches_eq_decide model p)
  have hcollect := collectProviderCreds_eq_filter_map model providers
  have hnil := collectProviderCreds_eq_nil_iff model providers
  constructor
  · intro creds hok
    unfold getProvidersForModel at hok
    by_cases hempty : (collectProviderCreds model providers).isEmpty
    · rw [if_pos hempty] at hok
      exact absurd hok (by simp)
    · rw [if_neg hempty] at hok
      have hcr : collectProviderCreds model providers = creds := Except.ok.inj hok
      rw [← hcr, hcollect, hfilter]
  · unfold getProvidersForModel
    by_cases hempty : (collectProviderCreds model providers).isEmpty
    · rw [if_pos hempty]
      rw [List.isEmpty_iff] at hempty
      exact iff_of_true rfl (hnil.mp hempty)
    · rw [if_neg hempty]
      rw [List.isEmpty_iff] at hempty
      constructor
      · intro h
        exact absurd h (by simp)
      · intro hall
        exact absurd (hnil.mpr hall) hempty

/-- C8: `__get_model_capabilities` returns the capabilities declared for the
model by the first provider (registration order) whose model list contains the
name, regardless of what later providers declare; and it fails with the
model-not-found error iff no registered provider has a model of that name. -/
theorem getModelCapabilities_spec (providers pre post : List ProviderConfig)
    (p : ProviderConfig) (m : Model) (model : String) :
    (providers = pre ++ p :: post →
      (∀ q ∈ pre, providerMatches model q = false) →
      p.models.find? (fun mm => mm.name == model) = some m →
      getModelCapabilities providers model = .ok m.capabilities) ∧
    (getModelCapabilities providers model = .error (.modelNotFound model) ↔
      ∀ q ∈ providers, ∀ mm ∈ q.models, mm.name ≠ model) := by
  constructor
  · intro hps hpre hfind
    subst hps
    induction pre with
    | nil => simp [getModelCapabilities, hfind]
    | cons q pre' ih =>
        have hq : providerMatches model q = false := hpre q (by simp)
        have hqnone : q.models.find? (fun mm => mm.name == model) = none := by
          rw [List.find?_eq_none]
          intro mm hmm hbeq
          have hmatch : providerMatches model q = true := by
            simp only [providerMatches, List.any_eq_true]
            exact ⟨mm, hmm, hbeq⟩
          simp [hq] at hmatch
        simpa [getModelCapabilities, hqnone] using ih (fun q' hq' => hpre q' (by simp [hq']))
  · induction providers with
    | nil => simp [getModelCapabilities]
    | cons q rest ih =>
        rw [show getModelCapabilities (q :: rest) model =
            (match q.models.find? (fun mm => mm.name == model) with
             | some mm => .ok mm.capabilities
             | none => getModelCapabilities rest model) from rfl]
        cases hfind : q.models.find? (fun mm => mm.name == model) with
        | some mm =>
            have hmem := List.mem_of_find?_eq_some hfind
            have hname : mm.name = model := by
              simpa using List.find?_some hfind
            simp only
            constructor
            · intro h
              exact absurd h (by simp)
            · intro hall
              exact absurd hname (hall q (by simp) mm hmem)
        | none =>
            have hq : ∀ mm ∈ q.models, mm.name ≠ model := by
              intro mm hmm
              have := List.find?_eq_none.mp hfind mm hmm
              simpa using this
            simp only
            rw [ih]
            constructor
            · intro hall q' hq' mm hmm
              rcases List.mem_cons.mp hq' with h | h
              · subst h
                exact hq mm hmm
              · exact hall q' h mm hmm
            · intro hall q' hq' mm hmm
              exact hall q' (List.mem_cons_of_mem _ hq') mm hmm

/-! ## Witness theorems for the fallback and registry claims -/

/-- Closed instance of C1: with P1 and P2 failing and P3 succeeding, the
fallback run returns P3's result and the invocation trace is the whole
candidate prefix in order. -/
theorem runWithFallback_first_success_witness :
    runWithFallback sampleProviders sampleAction "m" = .ok 7 ∧
    fallbackTrace sampleAction [sampleCredsA, sampleCredsB, sampleCredsC] =
      [sampleCredsA, sampleCredsB, sampleCredsC].take 3 := by
  refine runWithFallback_first_success sampleProviders sampleAction "m"
    [sampleCredsA, sampleCredsB, sampleCredsC] 2 (by decide) 7 rfl ?_ rfl
  intro j hj
  interval_cases j <;> exact ⟨"boom", rfl⟩

/-- Closed instance of C2: with every candidate failing, the aggregated error
has exactly one entry per candidate, in attempt order. -/
theorem runWithFallback_exhaustion_witness :
    runWithFallback sampleProviders failAction "m" =
      .error (.fallbackExhausted
        [("m", "fail-openai"), ("m", "fail-google"), ("m", "fail-anthropic")]) := by
  have h := runWithFallback_exhaustion sampleProviders failAction "m"
      [sampleCredsA, sampleCredsB, sampleCredsC] rfl
      (fun c _ => ⟨"fail-" ++ c.provider, rfl⟩)
  rw [h]
  simp [actionErrMsg, failAction, sampleCredsA, sampleCredsB, sampleCredsC]

/-- Closed instance of C10: with every candidate failing, each aggregated
entry's identifier is the requested model name. -/
theorem runWithFallback_exhaustion_identifiers_witness :
    ∃ failures,
      runWithFallback sampleProviders failAction "m" = .error (.fallbackExhausted failures) ∧
      failures.length = 3 ∧
      ∀ p ∈ failures, p.1 = "m" := by
  obtain ⟨fs, h1, h2, h3⟩ :=
    runWithFallback_exhaustion_identifiers sampleProviders failAction "m"
      [sampleCredsA, sampleCredsB, sampleCredsC] rfl
      (fun c _ => ⟨"fail-" ++ c.provider, rfl⟩)
  exact ⟨fs, h1, by rw [h2]; rfl, h3⟩

/-- Closed instance of C7: the credentials list for "m" is the filtered map
over the registration order, and a name nobody exposes yields the
model-not-found error. -/
theorem getProvidersForModel_spec_witness :
    [sampleCredsA, sampleCredsB, sampleCredsC] =
      (sampleProviders.filter
        (fun p => decide (∃ m ∈ p.models, m.name = "m"))).map ProviderConfig.creds ∧
    getProvidersForModel sampleProviders "absent" = .error (.modelNotFound "absent") := by
  constructor
  · exact (getProvidersForModel_spec sampleProviders "m").1
      [sampleCredsA, sampleCredsB, sampleCredsC] rfl
  · exact (getProvidersForModel_spec sampleProviders "absent").2.mpr (by decide)

/-- Closed instance of C8: the capabilities of "m" come from the second
provider (the first exposing it), the third provider's declaration is
ignored, and an unexposed name yields the model-not-found error. -/
theorem getModelCapabilities_spec_witness :
    getModelCapabilities capProviders "m" = .ok [ModelCapability.IMAGE_AGENT] ∧
    getModelCapabilities capProviders "absent" = .error (.modelNotFound "absent") := by
  constructor
  · exact (getModelCapabilities_spec capProviders [⟨sampleCredsA, [⟨"n", []⟩]⟩]
      [⟨sampleCredsC, [⟨"m", [.VIDEO_AGENT]⟩]⟩] ⟨sampleCredsB, [⟨"m", [.IMAGE_AGENT]⟩]⟩
      ⟨"m", [.IMAGE_AGENT]⟩ "m").1 rfl (by decide) rfl
  · exact (getModelCapabilities_spec capProviders [] [] ⟨sampleCredsA, []⟩ ⟨"", []⟩
      "absent").2.mpr (by decide)

/-! ## Required capabilities: C4 -/

/-- C4 counterexample: the MIME type "text/ximage" starts with none of image,
video, audio, yet `__required_capabilities` accepts it and derives the
image-agent capability instead of failing with the unsupported-MIME-type
error, because the source tests substring containment, not the prefix. -/
theorem requiredCapabilities_prefix_counterexample :
    ("image".toList.isPrefixOf "text/ximage".toList = false) ∧
    ("video".toList.isPrefixOf "text/ximage".toList = false) ∧
    ("audio".toList.isPrefixOf "text/ximage".toList = false) ∧
    requiredCapabilities [.binary ⟨"user", "payload", "text/ximage", none⟩] =
      .ok [ModelCapability.IMAGE_AGENT] :=
  ⟨rfl, rfl, rfl, rfl⟩

/-- C4 (amended): `__required_capabilities` derives exactly one capability per
binary message by MIME-type substring containment tested in the order image,
video, audio (not by prefix), and fails with the unsupported-MIME-type error
of the first binary message whose MIME type contains none of the three
substrings. -/
theorem requiredCapabilities_substring_table (ms : List Message) :
    ((∀ mime ∈ binaryMimes ms, mimeSupported mime = true) →
      requiredCapabilities ms = .ok ((binaryMimes ms).map capOfMime)) ∧
    (∀ mime, (binaryMimes ms).find? (fun m => !mimeSupported m) = some mime →
      requiredCapabilities ms = .error (.unsupportedMime mime)) := by
  induction ms with
  | nil =>
      refine ⟨fun _ => rfl, fun mime h => ?_⟩
      simp [binaryMimes] at h
  | cons m rest ih =>
      cases m with
      | text t => exact ih
      | binary b =>
          constructor
          · intro h
            have hb : mimeSupported b.mime_type = true := h b.mime_type (by simp [binaryMimes])
            have hrest := ih.1 (fun mime hm => h mime (by simp [binaryMimes, hm]))
            by_cases h1 : strContains b.mime_type "image"
            · simp [requiredCapabilities, binaryMimes, capOfMime, Except.map, h1, hrest]
            · by_cases h2 : strContains b.mime_type "video"
              · simp [requiredCapabilities, binaryMimes, capOfMime, Except.map, h1, h2, hrest]
              · by_cases h3 : strContains b.mime_type "audio"
                · simp [requiredCapabilities, binaryMimes, capOfMime, Except.map,
                    h1, h2, h3, hrest]
                · simp [mimeSupported, h1, h2, h3] at hb
          · intro mime hfind
            by_cases hb : mimeSupported b.mime_type
            · have hfind' : (binaryMimes rest).find? (fun m => !mimeSupported m) = some mime := by
                simpa [binaryMimes, List.find?_cons, hb] using hfind
              have hrest := ih.2 mime hfind'
              have hb' : mimeSupported b.mime_type = true := hb
              by_cases h1 : strContains b.mime_type "image"
              · simp [requiredCapabilities, Except.map, h1, hrest]
              · by_cases h2 : strContains b.mime_type "video"
                · simp [requiredCapabilities, Except.map, h1, h2, hrest]
                · by_cases h3 : strContains b.mime_type "audio"
                  · simp [requiredCapabilities, Except.map, h1, h2, h3, hrest]
                  · simp [mimeSupported, h1, h2, h3] at hb'
            · have hbf : mimeSupported b.mime_type = false := by simpa using hb
              have hmime : mime = b.mime_type := by
                simp [binaryMimes, List.find?_cons, hbf] at hfind
                exact hfind.symm
              subst hmime
              have h123 := hbf
              simp only [mimeSupported, Bool.or_eq_false_iff] at h123
              simp [requiredCapabilities, h123.1.1, h123.1.2, h123.2]

/-- Closed instance of the amended C4: a list with an image and an audio
binary message among text yields exactly one capability per binary in order;
a MIME type containing none of the three substrings makes the computation
fail with the unsupported-MIME-type error. -/
theorem requiredCapabilities_substring_table_witness :
    requiredCapabilities
        [.binary ⟨"user", "x", "image/png", none⟩,
         .text ⟨"user", "hi"⟩,
         .binary ⟨"user", "y", "audio/mpeg", none⟩] =
      .ok [ModelCapability.IMAGE_AGENT, ModelCapability.AUDIO_AGENT] ∧
    requiredCapabilities [.binary ⟨"user", "z", "application/pdf", none⟩] =
      .error (.unsupportedMime "application/pdf") := by
  constructor
  · have h := (requiredCapabilities_substring_table
        [.binary ⟨"user", "x", "image/png", none⟩,
         .text ⟨"user", "hi"⟩,
         .binary ⟨"user", "y", "audio/mpeg", none⟩]).1 (by decide)
    rw [h]
    rfl
  · exact (requiredCapabilities_substring_table
        [.binary ⟨"user", "z", "application/pdf", none⟩]).2 "application/pdf" (by decide)

/-! ## Preprocessing: C5 and C9 -/

theorem preprocessMessages_eq (px : Proxy) (ms : List Message) (model : String)
    (force : Bool) (caps : List ModelCapability)
    (hcaps : getModelCapabilities px.providers model = .ok caps) :
    preprocessMessages px ms model force =
      if force then binariesToText px ⟨model, caps⟩ ms
      else
        match requiredCapabilities ms with
        | .error e => .error e
        | .ok required =>
            if required.all (fun c => caps.contains c) then .ok ms
            else binariesToText px ⟨model, caps⟩ ms := by
  unfold preprocessMessages
  rw [hcaps]

theorem binariesToText_shape (px : Proxy) (primary : Model) :
    ∀ (ms out : List Message), binariesToText px primary ms = .ok out →
      List.Forall₂ transformedShape ms out := by
  intro ms
  induction ms with
  | nil =>
      intro out h
      obtain rfl := Except.ok.inj h
      exact List.Forall₂.nil
  | cons m rest ih =>
      intro out h
      cases m with
      | text t =>
          cases hrest : binariesToText px primary rest with
          | error e => simp [binariesToText, hrest] at h
          | ok rest' =>
              simp only [binariesToText, hrest] at h
              obtain rfl := Except.ok.inj h
              exact List.Forall₂.cons rfl (ih rest' hrest)
      | binary b =>
          cases hbt : binaryToText px b primary with
          | error e => simp [binariesToText, hbt] at h
          | ok s =>
              cases hrest : binariesToText px primary rest with
              | error e => simp [binariesToText, hbt, hrest] at h
              | ok rest' =>
                  simp only [binariesToText, hbt, hrest] at h
                  obtain rfl := Except.ok.inj h
                  exact List.Forall₂.cons ⟨s, rfl⟩ (ih rest' hrest)

/-- C5: under a successful capability lookup and requirement computation, if
force is set or some required capability is missing from the target model's
set, a successful preprocessing returns a list of the same length in which
each binary message is replaced in place by a text message with the same role
and each text message passes through unchanged; otherwise preprocessing
returns the original list. -/
theorem preprocessMessages_spec (px : Proxy) (ms : List Message) (model : String)
    (force : Bool) (caps required : List ModelCapability) (out : List Message)
    (hcaps : getModelCapabilities px.providers model = .ok caps)
    (hreq : requiredCapabilities ms = .ok required)
    (hout : preprocessMessages px ms model force = .ok out) :
    ((force = true ∨ required.all (fun c => caps.contains c) = false) →
      out.length = ms.length ∧ List.Forall₂ transformedShape ms out) ∧
    (force = false → required.all (fun c => caps.contains c) = true → out = ms) := by
  rw [preprocessMessages_eq px ms model force caps hcaps] at hout
  cases force with
  | true =>
      rw [if_pos rfl] at hout
      have hshape := binariesToText_shape px ⟨model, caps⟩ ms out hout
      exact ⟨fun _ => ⟨hshape.length_eq.symm, hshape⟩, fun hf _ => absurd hf (by simp)⟩
  | false =>
      rw [if_neg (by simp)] at hout
      simp only [hreq] at hout
      cases hall : required.all (fun c => caps.contains c) with
      | true =>
          rw [hall, if_pos rfl] at hout
          refine ⟨?_, fun _ _ => (Except.ok.inj hout).symm⟩
          rintro (h | h) <;> exact absurd h (by simp)
      | false =>
          rw [hall, if_neg (by simp)] at hout
          have hshape := binariesToText_shape px ⟨model, caps⟩ ms out hout
          exact ⟨fun _ => ⟨hshape.length_eq.symm, hshape⟩,
                 fun _ hT => absurd hT (by simp)⟩

/-- The list produced by preprocessing `sampleMessages` with force set. -/
def sampleMessagesOut : List Message :=
  [.text ⟨"user", "described"⟩, .text ⟨"user", "hi"⟩]

/-- Closed instance of C5: forcing transformation of an image-plus-text list
yields a same-length list with the binary replaced in place (role kept) and
the text untouched. -/
theorem preprocessMessages_spec_witness :
    sampleMessagesOut.length = sampleMessages.length ∧
    List.Forall₂ transformedShape sampleMessages sampleMessagesOut :=
  (preprocessMessages_spec okProxy sampleMessages "m" true [.IMAGE_AGENT] [.IMAGE_AGENT]
    sampleMessagesOut rfl rfl rfl).1 (Or.inl rfl)

theorem requiredCapabilities_all_text (ms : List Message)
    (htext : ∀ m ∈ ms, m.isBinary = false) :
    requiredCapabilities ms = .ok [] := by
  induction ms with
  | nil => rfl
  | cons m rest ih =>
      cases m with
      | text t => exact ih (fun m hm => htext m (List.mem_cons_of_mem _ hm))
      | binary b => exact absurd (htext (.binary b) (by simp)) (by simp [Message.isBinary])

/-- C9: preprocessing an all-text message list with force off (for a model
whose capability lookup succeeds) returns the input list unchanged, and so
does applying preprocessing a second time to the result. -/
theorem preprocessMessages_idempotent_on_text (px : Proxy) (ms : List Message)
    (model : String) (caps : List ModelCapability)
    (hcaps : getModelCapabilities px.providers model = .ok caps)
    (htext : ∀ m ∈ ms, m.isBinary = false) :
    preprocessMessages px ms model false = .ok ms ∧
    (preprocessMessages px ms model false).bind
        (fun ms' => preprocessMessages px ms' model false) = .ok ms := by
  have hreq := requiredCapabilities_all_text ms htext
  have h1 : preprocessMessages px ms model false = .ok ms := by
    rw [preprocessMessages_eq px ms model false caps hcaps]
    rw [if_neg (by simp)]
    rw [hreq]
    simp
  refine ⟨h1, ?_⟩
  rw [h1]
  exact h1

/-- Closed instance of C9: an all-text list is returned unchanged, twice. -/
theorem preprocessMessages_idempotent_on_text_witness :
    preprocessMessages okProxy [.text ⟨"user", "hello"⟩] "m" false =
      .ok [.text ⟨"user", "hello"⟩] ∧
    (preprocessMessages okProxy [.text ⟨"user", "hello"⟩] "m" false).bind
        (fun ms' => preprocessMessages okProxy ms' "m" false) =
      .ok [.text ⟨"user", "hello"⟩] :=
  preprocessMessages_idempotent_on_text okProxy [.text ⟨"user", "hello"⟩] "m"
    [.IMAGE_AGENT] rfl (by decide)

/-! ## Transformer candidate lists: C6 -/

/-- C6 counterexample: with one provider exposing the image-capable model "m"
and a transport that fails every call, the candidate list for converting an
image binary with primary model "m" contains "m" twice, and the exhausted
transformer error records two attempts against "m" — the target model is not
excluded from the registry scan and is attempted twice. -/
theorem binaryToText_duplicate_candidate :
    transformerCandidates dupProviders ⟨"m", [.IMAGE_AGENT]⟩ .IMAGE_AGENT =
      .ok [⟨"m", [.IMAGE_AGENT]⟩, ⟨"m", [.IMAGE_AGENT]⟩] ∧
    binaryToText dupProxy ⟨"user", "payload", "image/png", none⟩ ⟨"m", [.IMAGE_AGENT]⟩ =
      .error (.transformerExhausted [("m", dupMsg), ("m", dupMsg)]) :=
  ⟨rfl, rfl⟩

theorem runBinaryTransformerLoop_first_success
    (tryModel : Model → Except ClientError String) (models : List Model) :
    ∀ (errs : List (String × String)) (i : Nat) (hi : i < models.length) (r : String),
      (∀ j (hj : j < i), ∃ e, tryModel (models.get ⟨j, Nat.lt_trans hj hi⟩) = .error e) →
      tryModel (models.get ⟨i, hi⟩) = .ok r →
      runBinaryTransformerLoop tryModel errs models = .ok r := by
  induction models with
  | nil => intro _ i hi; exact absurd hi (Nat.not_lt_zero i)
  | cons m rest ih =>
      intro errs i hi r hfail hsucc
      cases i with
      | zero =>
          have hm : tryModel m = .ok r := hsucc
          simp [runBinaryTransformerLoop, hm]
      | succ n =>
          obtain ⟨e, he⟩ := hfail 0 (Nat.succ_pos n)
          have he' : tryModel m = .error e := he
          have hn : n < rest.length := Nat.lt_of_succ_lt_succ hi
          have hfail' : ∀ j (hj : j < n),
              ∃ e', tryModel (rest.get ⟨j, Nat.lt_trans hj hn⟩) = .error e' :=
            fun j hj => hfail (j + 1) (Nat.succ_lt_succ hj)
          have hsucc' : tryModel (rest.get ⟨n, hn⟩) = .ok r := hsucc
          have := ih (errs ++ [(m.name, e.message)]) n hn r hfail' hsucc'
          simp [runBinaryTransformerLoop, he', this]

theorem transformerTrace_first_success
    (tryModel : Model → Except ClientError String) (models : List Model) :
    ∀ (i : Nat) (hi : i < models.length) (r : String),
      (∀ j (hj : j < i), ∃ e, tryModel (models.get ⟨j, Nat.lt_trans hj hi⟩) = .error e) →
      tryModel (models.get ⟨i, hi⟩) = .ok r →
      transformerTrace tryModel models = models.take (i + 1) := by
  induction models with
  | nil => intro i hi; exact absurd hi (Nat.not_lt_zero i)
  | cons m rest ih =>
      intro i hi r hfail hsucc
      cases i with
      | zero =>
          have hm : tryModel m = .ok r := hsucc
          simp [transformerTrace, hm]
      | succ n =>
          obtain ⟨e, he⟩ := hfail 0 (Nat.succ_pos n)
          have he' : tryModel m = .error e := he
          have hn : n < rest.length := Nat.lt_of_succ_lt_succ hi
          have hfail' : ∀ j (hj : j < n),
              ∃ e', tryModel (rest.get ⟨j, Nat.lt_trans hj hn⟩) = .error e' :=
            fun j hj => hfail (j + 1) (Nat.succ_lt_succ hj)
          have hsucc' : tryModel (rest.get ⟨n, hn⟩) = .ok r := hsucc
          have := ih n hn r hfail' hsucc'
          simp [transformerTrace, he', this]

theorem binaryToText_eq (px : Proxy) (bm : BinaryMessage) (primary : Model)
    (hsup : mimeSupported bm.mime_type = true) :
    binaryToText px bm primary =
      match findModelsWithCapability px.providers (capOfMime bm.mime_type) with
      | .error e => .error e
      | .ok capable =>
          runBinaryTransformerWithFallback px bm
            (primaryPrefix primary (capOfMime bm.mime_type) ++ capable)
            (promptOfCap (capOfMime bm.mime_type)) := by
  by_cases h1 : strContains bm.mime_type "image"
  · cases hfind : findModelsWithCapability px.providers ModelCapability.IMAGE_AGENT with
    | error e =>
        simp [binaryToText, transformerCandidates, capOfMime, promptOfCap, h1, hfind]
    | ok capable =>
        simp [binaryToText, transformerCandidates, capOfMime, promptOfCap, primaryPrefix,
          h1, hfind]
  · by_cases h2 : strContains bm.mime_type "video"
    · cases hfind : findModelsWithCapability px.providers ModelCapability.VIDEO_AGENT with
      | error e =>
          simp [binaryToText, transformerCandidates, capOfMime, promptOfCap, h1, h2, hfind]
      | ok capable =>
          simp [binaryToText, transformerCandidates, capOfMime, promptOfCap, primaryPrefix,
            h1, h2, hfind]
    · by_cases h3 : strContains bm.mime_type "audio"
      · cases hfind : findModelsWithCapability px.providers ModelCapability.AUDIO_AGENT with
        | error e =>
            simp [binaryToText, transformerCandidates, capOfMime, promptOfCap, h1, h2, h3,
              hfind]
        | ok capable =>
            simp [binaryToText, transformerCandidates, capOfMime, promptOfCap, primaryPrefix,
              h1, h2, h3, hfind]
      · simp [mimeSupported, h1, h2, h3] at hsup

/-- C6 (amended): for a binary message whose MIME type maps to capability C,
the conversion candidate list is the target model first (only if it has C)
followed by every registered model advertising C — including the target model
itself again, so a C-capable target occurs twice and can be attempted twice;
candidates are attempted in order with first-success semantics; and if no
registered model advertises C the conversion fails with the no-capable-model
error. -/
theorem binaryToText_candidates_spec (px : Proxy) (bm : BinaryMessage) (primary : Model)
    (capable : List Model) (i : Nat) (r : String)
    (hsup : mimeSupported bm.mime_type = true) :
    ((∀ m ∈ allModels px.providers,
        m.capabilities.contains (capOfMime bm.mime_type) = false) →
      binaryToText px bm primary = .error (.noCapableModel (capOfMime bm.mime_type))) ∧
    (findModelsWithCapability px.providers (capOfMime bm.mime_type) = .ok capable →
      ∀ hi : i < (primaryPrefix primary (capOfMime bm.mime_type) ++ capable).length,
      (∀ j (hj : j < i), ∃ e,
        tryTransform px bm (promptOfCap (capOfMime bm.mime_type))
          ((primaryPrefix primary (capOfMime bm.mime_type) ++ capable).get
            ⟨j, Nat.lt_trans hj hi⟩) = .error e) →
      tryTransform px bm (promptOfCap (capOfMime bm.mime_type))
          ((primaryPrefix primary (capOfMime bm.mime_type) ++ capable).get ⟨i, hi⟩) =
        .ok r →
      binaryToText px bm primary = .ok r ∧
      transformerTrace (tryTransform px bm (promptOfCap (capOfMime bm.mime_type)))
          (primaryPrefix primary (capOfMime bm.mime_type) ++ capable) =
        (primaryPrefix primary (capOfMime bm.mime_type) ++ capable).take (i + 1)) := by
  constructor
  · intro hnone
    have hfilter : (allModels px.providers).filter
        (fun m => m.capabilities.contains (capOfMime bm.mime_type)) = [] := by
      rw [List.filter_eq_nil_iff]
      intro m hm
      simpa using hnone m hm
    have hfind : findModelsWithCapability px.providers (capOfMime bm.mime_type) =
        .error (.noCapableModel (capOfMime bm.mime_type)) := by
      unfold findModelsWithCapability
      rw [if_pos (show ((allModels px.providers).filter
          (fun m => m.capabilities.contains (capOfMime bm.mime_type))).isEmpty = true by
        rw [hfilter]
        rfl)]
    rw [binaryToText_eq px bm primary hsup, hfind]
  · intro hfind hi hfail hsucc
    have heq := binaryToText_eq px bm primary hsup
    rw [hfind] at heq
    constructor
    · rw [heq]
      exact runBinaryTransformerLoop_first_success _ _ [] i hi r hfail hsucc
    · exact transformerTrace_first_success _ _ i hi r hfail hsucc

/-- Closed instance of the amended C6: with two image-capable models n1, n2
registered, an incapable primary, n1's transformer attempt failing and n2's
succeeding, the conversion returns n2's output after attempting exactly n1
then n2, in order. -/
theorem binaryToText_candidates_spec_witness :
    binaryToText pickyProxy ⟨"user", "payload", "image/png", none⟩ ⟨"m", []⟩ =
      .ok "ocr-text" ∧
    transformerTrace
        (tryTransform pickyProxy ⟨"user", "payload", "image/png", none⟩
          (promptOfCap (capOfMime "image/png")))
        (primaryPrefix ⟨"m", []⟩ (capOfMime "image/png") ++ twoCapable) =
      (primaryPrefix ⟨"m", []⟩ (capOfMime "image/png") ++ twoCapable).take 2 := by
  refine (binaryToText_candidates_spec pickyProxy ⟨"user", "payload", "image/png", none⟩
      ⟨"m", []⟩ twoCapable 1 "ocr-text" rfl).2 rfl (by decide) ?_ rfl
  intro j hj
  interval_cases j
  exact ⟨.fallbackExhausted [("n1", "boom")], rfl⟩

/-! ## Streaming fallback: C3 -/

/-- C3: evaluation at the failing input. Two providers expose "m"; the first
provider's stream fails at establishment (iteration raises before any chunk)
while the second provider's stream would succeed. The streaming fallback
nevertheless returns the first provider's generator — constructing an async
generator cannot raise, so the loop's except branch is unreachable — and the
consumer observes the establishment failure; the second candidate is never
attempted, contrary to the claimed establishment-time fallback. -/
theorem agentRunStreamWithFallback_no_establishment_fallback :
    getProvidersForModel streamProxy.providers streamRequest.model =
      .ok [sampleCredsA, sampleCredsB] ∧
    streamProxy.agentRunStream streamRequest sampleCredsB =
      ⟨[⟨"chunk", ⟨1, 1⟩⟩], none⟩ ∧
    agentRunStreamWithFallback streamProxy streamRequest =
      .ok ⟨[], some "Error streaming agent: 500"⟩ :=
  ⟨rfl, rfl, rfl⟩

end Livellm
